import Mathlib

/-!
Verification of the apidoc annotation tag parsers (package `doc`) and of the
OpenAPI sanitize pipeline (package `internal/output/openapi`).

The `openapi` half is a shallow embedding of
`src/internal/output/openapi/openapi.go`; Go's in-place mutation of the
receiver is modelled by returning the updated value next to the optional
error, and a `nil` pointer dereference is modelled by an `Option`-wrapped
result (`none` = crash).  The `doc` half (tag parsers) is not present in
`src/` — only its tests are — so those functions are modelled from the
spec, as marked on each definition.
-/

namespace Apidoc

/-- Error kinds of the `errors` package that the sanitize/parse pipeline uses
(spec §7): `InvalidFormat`, `MissingRequiredField` (the source's
`locale.ErrRequired`), `InvalidStatus`, `InvalidType`. -/
inductive ErrKind where
  | invalidFormat
  | required
  | invalidStatus
  | invalidType
  deriving DecidableEq, Repr

/-- The error value built by `errors.New(file, field, line, kind)`: a file, a
dotted field path, a line number and an error kind (message text is out of
scope, only the kind matters, spec §1). -/
structure ApiError where
  file : String
  field : String
  line : Nat
  kind : ErrKind
  deriving DecidableEq, Repr

/- ### Byte/character utilities shared by the tag parsers -/

/-- ASCII whitespace, the separator used when a tag body is split into
words (spec §4.3: "tokens are split on runs of whitespace"). -/
def isWS (c : Char) : Bool :=
  c == ' ' || c == '\t' || c == '\n' || c == '\r'

/-- ASCII lower-casing of one character (the `bytes.ToLower` used by the
optional-detector). -/
def asciiLower (c : Char) : Char :=
  if 'A' ≤ c ∧ c ≤ 'Z' then Char.ofNat (c.toNat + 32) else c

/-- Lower-case an entire string. -/
def lowerStr (s : String) : String :=
  String.mk (s.data.map asciiLower)

/-- Drop the leading run of whitespace. -/
def dropWS : List Char → List Char
  | [] => []
  | c :: s => if isWS c then dropWS s else c :: s

/-- Split off the leading maximal run of non-whitespace characters,
returning it together with the untouched remainder. -/
def takeWord : List Char → List Char × List Char
  | [] => ([], [])
  | c :: s =>
    if isWS c then ([], c :: s)
    else
      let p := takeWord s
      (c :: p.1, p.2)

/-- Working loop of the word splitter, on text whose leading whitespace has
already been dropped: empty text yields no field, a last wanted field takes
the remainder verbatim, and otherwise one word is split off and the
remainder is continued after dropping the separating whitespace run. -/
def splitWordsGo : Nat → List Char → List (List Char)
  | _, [] => []
  | 0, s => [s]
  | 1, s => [s]
  | n + 2, s =>
    let p := takeWord s
    p.1 :: splitWordsGo (n + 1) (dropWS p.2)

/-- Split a tag body into at most `n` whitespace-separated fields; the last
field greedily keeps the remainder of the text verbatim after its leading
whitespace (spec §4.3: every grammar is "ordered required-field lists plus
one greedy trailing field"). -/
def splitWords (n : Nat) (s : List Char) : List (List Char) :=
  splitWordsGo n (dropWS s)

/-- Split a text at its first newline: `some (first-line, rest)` when a
newline exists, `none` otherwise. -/
def splitAtNewline : List Char → Option (List Char × List Char)
  | [] => none
  | c :: s =>
    if c = '\n' then some ([], s)
    else
      match splitAtNewline s with
      | none => none
      | some p => some (c :: p.1, p.2)

/-- Split a text on every `.` character (the `strings.Split(s, ".")` used
by the dotted-type grammar and the semantic-version check): splitting the
empty text gives one empty component. -/
def splitOnDot : List Char → List (List Char)
  | [] => [[]]
  | c :: s =>
    if c = '.' then [] :: splitOnDot s
    else
      match splitOnDot s with
      | [] => [[c]]
      | w :: ws => (c :: w) :: ws

/-- A nonempty all-digit string, read as a decimal number. -/
def parseNat (s : List Char) : Option Nat :=
  if s ≠ [] ∧ s.all Char.isDigit then
    some (s.foldl (fun acc c => acc * 10 + (c.toNat - '0'.toNat)) 0)
  else
    none

/- ### The `doc` package: document model and tag parsers.

The implementation of this package is not present under `src/` (only its
tests, in `src/unnamed/part_000`, are), so every definition below is
modelled from the spec (§3, §4.2, §4.3) and checked against those tests. -/

namespace doc

/-- Modelled from the spec §4.2: the kinds a dotted composite-type segment
can denote — `bool→Bool, number|int|float→Number, string→String,
object→Object, array→Array, none|void→None, *→wildcard`. -/
inductive TypeKind where
  | none
  | bool
  | number
  | string
  | object
  | array
  | wildcard
  deriving DecidableEq, Repr

/-- Modelled from the spec §3: the recursive `Type` entity, with a kind, an
optional `items` sub-type (populated for Array kinds) and a free-text
description.  Object `properties` are attached by subsequent `@apiParam`
tags at a later stage (spec §4.2), a mechanism no claim exercises, so that
field is not carried here. -/
inductive Schema where
  | mk (type : TypeKind) (items : Option Schema) (description : String)

/-- Equality of type trees is decidable (structural recursion). -/
def Schema.decEq : (a b : Schema) → Decidable (a = b)
  | .mk t1 i1 d1, .mk t2 i2 d2 =>
    if ht : t1 = t2 then
      if hd : d1 = d2 then
        match i1, i2 with
        | Option.none, Option.none => isTrue (by subst ht hd; rfl)
        | some x, some y =>
          match Schema.decEq x y with
          | isTrue h => isTrue (by subst ht hd h; rfl)
          | isFalse h => isFalse (by simp [Schema.mk.injEq, h])
        | Option.none, some _ => isFalse (by simp [Schema.mk.injEq])
        | some _, Option.none => isFalse (by simp [Schema.mk.injEq])
      else isFalse (by simp [Schema.mk.injEq, hd])
    else isFalse (by simp [Schema.mk.injEq, ht])

instance : DecidableEq Schema := Schema.decEq

/-- The kind of a type node. -/
def Schema.type : Schema → TypeKind
  | .mk t _ _ => t

/-- The `items` sub-type of a type node. -/
def Schema.items : Schema → Option Schema
  | .mk _ i _ => i

/-- The description text of a type node. -/
def Schema.description : Schema → String
  | .mk _ _ d => d

/-- Replace the description text of a type node. -/
def Schema.withDescription : Schema → String → Schema
  | .mk t i _, d => .mk t i d

/-- Modelled from the spec §4.2: map one (case-insensitive) dotted-type
segment to its kind; `none` for an unrecognized keyword. -/
def kindOfSegment (s : String) : Option TypeKind :=
  match lowerStr s with
  | "bool" => some .bool
  | "number" => some .number
  | "int" => some .number
  | "float" => some .number
  | "string" => some .string
  | "object" => some .object
  | "array" => some .array
  | "none" => some TypeKind.none
  | "void" => some TypeKind.none
  | "*" => some .wildcard
  | _ => Option.none

/-- Modelled from the spec §4.2: build the type tree from the `.`-separated
segments, right-to-left — the last segment is the leaf kind, every earlier
segment must be `array` and wraps the rest as its `items`; any unrecognized
segment, or a non-Array segment in non-terminal position, is `InvalidType`. -/
def parseTypeSegs : List String → Except ApiError Schema
  | [] => .error ⟨"", "type", 0, .invalidType⟩
  | [s] =>
    match kindOfSegment s with
    | some k => .ok (.mk k Option.none "")
    | Option.none => .error ⟨"", "type", 0, .invalidType⟩
  | s :: rest =>
    if kindOfSegment s = some .array then
      match parseTypeSegs rest with
      | .error e => .error e
      | .ok t => .ok (.mk .array (some t) "")
    else
      .error ⟨"", "type", 0, .invalidType⟩

/-- Modelled from the spec §4.2: parse one dotted composite-type token such
as `array.object` into a type tree. -/
def parseType (tok : String) : Except ApiError Schema :=
  parseTypeSegs ((splitOnDot tok.data).map String.mk)

/-- One lexed tag: a name (without the leading `@`) and a body that keeps
embedded newlines (spec §3, §4.1).  Source locations are out of scope. -/
structure Tag where
  name : String
  body : String
  deriving DecidableEq, Repr

/-- A request/response header (spec §3). -/
structure Header where
  name : String
  summary : String
  optional : Bool
  deriving DecidableEq, Repr

/-- An example attached to a body (spec §3): mimetype, summary, and the raw
value text kept verbatim. -/
structure Example where
  mimetype : String
  summary : String
  value : String
  deriving DecidableEq, Repr

/-- A parameter (spec §3): name, type tree, optionality and description. -/
structure Param where
  name : String
  type : Schema
  optional : Bool
  description : String
  deriving DecidableEq

/-- The shared body shape of requests and responses (spec §3): ordered
header, example and param lists plus an optional type tree. -/
structure Body where
  headers : List Header := []
  examples : List Example := []
  params : List Param := []
  type : Option Schema := Option.none
  deriving DecidableEq

/-- A response (spec §3): a Body plus a status code and a mimetype. -/
structure Response where
  status : Nat
  mimetype : String
  body : Body
  deriving DecidableEq

/-- The accumulating response list (`responses` in the source tests);
a list, not a map — duplicate statuses are permitted (spec §3). -/
structure responses where
  Responses : List Response := []
  deriving DecidableEq

/-- Modelled from the spec §4.3: the optional-detector — a token is
"optional" iff it case-insensitively equals the literal `optional`. -/
def isOptional (s : String) : Bool :=
  lowerStr s == "optional"

/-- Modelled from the spec §4.3 (`@apiExample mimetype summary… \n body`):
first token of the first line = mimetype, the rest of the first line =
summary, everything after the first newline = the value verbatim; the
parsed Example is appended to the owning Body's list.  Below the grammar's
minimum (no newline, or an empty first line) the Body is left unchanged
and no error is reported (spec §4.3 minimum-token policy). -/
def Body.parseExample (body : Body) (tag : Tag) : Body :=
  match splitAtNewline tag.body.data with
  | Option.none => body
  | some p =>
    match splitWords 2 p.1 with
    | [mt] =>
      { body with examples :=
          body.examples ++ [⟨String.mk mt, "", String.mk p.2⟩] }
    | [mt, sm] =>
      { body with examples :=
          body.examples ++ [⟨String.mk mt, String.mk sm, String.mk p.2⟩] }
    | _ => body

/-- Modelled from the spec §4.3 (`@apiHeader name (required|optional)
summary`): three fields — name (case preserved), the optional-detector
token, and the greedy summary; appended to the owning Body's Headers.
Fewer than three fields: no mutation, no error. -/
def Body.parseHeader (body : Body) (tag : Tag) : Body :=
  match splitWords 3 tag.body.data with
  | [n, o, s] =>
    { body with headers :=
        body.headers ++ [⟨String.mk n, String.mk s, isOptional (String.mk o)⟩] }
  | _ => body

/-- Modelled from the spec §4.3 (`@apiParam name type (required|optional)
description`): four fields, the type going through the type grammar; the
nested-object scoping of §4.3 is not exercised by any claim and is not
modelled.  Below the minimum, or on an unparsable type, the Body is left
unchanged. -/
def Body.parseParam (body : Body) (tag : Tag) : Body :=
  match splitWords 4 tag.body.data with
  | n :: t :: o :: ds =>
    match parseType (String.mk t) with
    | .ok ty =>
      { body with params := body.params ++
          [⟨String.mk n, ty, isOptional (String.mk o),
            String.mk (ds.headD [])⟩] }
    | .error _ => body
  | _ => body

/-- Modelled from the spec §4.3 / §4.9: dispatch of the tags following an
`@apiResponse` into the response's Body — `@apiHeader`, `@apiParam` and
`@apiExample` tags accumulate onto the Body, an unknown tag name is a
silent no-op (spec §4.1), and the next `@apiResponse`/`@apiRequest` tag
closes the scope. -/
def consumeBody (body : Body) : List Tag → Body
  | [] => body
  | t :: rest =>
    if t.name = "apiResponse" ∨ t.name = "apiRequest" then body
    else
      let body' :=
        if t.name = "apiHeader" then body.parseHeader t
        else if t.name = "apiParam" then body.parseParam t
        else if t.name = "apiExample" then body.parseExample t
        else body
      consumeBody body' rest

/-- Modelled from the spec §4.3 (`@apiResponse status type mimetype
description…`): status parsed as an integer (`InvalidStatus` on a
non-numeric token), type through the type grammar, mimetype taken verbatim
(so `*` is accepted), and the optional trailing description attached to the
Type node — absent means the Type's description stays empty.  The tags of
the lexed stream after the `@apiResponse` are folded into the response's
Body. -/
def newResponse (stream : List Tag) (tag : Tag) : Except ApiError Response :=
  match splitWords 4 tag.body.data with
  | st :: ty :: mt :: ds =>
    match parseNat st with
    | Option.none => .error ⟨"", "status", 0, .invalidStatus⟩
    | some n =>
      match parseType (String.mk ty) with
      | .error e => .error e
      | .ok t =>
        let t := t.withDescription (String.mk (ds.headD []))
        let body := consumeBody {} stream
        .ok ⟨n, String.mk mt, { body with type := some t }⟩
  | _ => .error ⟨"", "response", 0, .invalidFormat⟩

/-- Modelled from the spec §4.3: the Response-builder entry point — build a
response from the tag and the lexed stream and append it to the
accumulating list; on a build failure the list is left unchanged. -/
def responses.parseResponse (d : responses) (stream : List Tag) (tag : Tag) :
    responses :=
  match newResponse stream tag with
  | .ok r => ⟨d.Responses ++ [r]⟩
  | .error _ => d

end doc

/- ### The `openapi` package: `src/internal/output/openapi/openapi.go`.

Embedded from the source.  Types whose `Sanitize` methods live outside
`src/` (`Server`, `Info`, the reusable component leaves) are modelled from
the spec, as marked.  Go's mutation of the receiver is modelled by
returning the updated `OpenAPI` value beside the optional error, and the
possible `nil`-pointer dereference inside `Link.Sanitize` is modelled by an
outer `Option` (`none` = crash). -/

namespace openapi

/-- `LatestVersion`: the latest supported openapi version constant
(openapi.go line 24). -/
def LatestVersion : String := "3.0.1"

/-- A nonempty all-digit version component. -/
def isDigits (s : List Char) : Bool :=
  !s.isEmpty && s.all Char.isDigit

/-- Modelled external dependency `version.SemVerValid` (package
`issue9/version`): a semantic version is `major.minor.patch` with numeric
components. -/
def SemVerValid (s : String) : Bool :=
  match splitOnDot s.data with
  | [ma, mi, pa] => isDigits ma && isDigits mi && isDigits pa
  | _ => false

/-- Modelled external dependency `is.URL` (package `issue9/is`), the URL
validation of spec §4.4; the synthetic root path `/` that the sanitizer
itself installs must pass it, so validity is modelled as non-emptiness. -/
def isURL (s : String) : Bool :=
  s != ""

/-- A server entry; carrying the URL checked by its sanitizer (variables
are plain data out of scope, spec §1). -/
structure Server where
  url : String
  description : String := ""
  deriving DecidableEq, Repr

/-- Modelled from the spec §4.4: a server entry must pass URL validation
(`InvalidFormat` on its `url` field otherwise).  The method itself is not
under `src/`. -/
def Server.Sanitize (srv : Server) : Option ApiError :=
  if isURL srv.url then Option.none
  else some ⟨"", "url", 0, .invalidFormat⟩

/-- The info object (plain data out of scope beyond its required fields). -/
structure Info where
  title : String
  version : String
  description : String := ""
  deriving DecidableEq, Repr

/-- Modelled from the spec §4.4: the root info object's required fields
(non-empty identifiers) are checked; the method is not under `src/`. -/
def Info.Sanitize (i : Info) : Option ApiError :=
  if i.title = "" then some ⟨"", "title", 0, .required⟩
  else if i.version = "" then some ⟨"", "version", 0, .required⟩
  else Option.none

/-- A reusable schema component (contents beyond the checked identifier are
plain data out of scope, spec §1). -/
structure Schema where
  type : String
  deriving DecidableEq, Repr

/-- Modelled from the spec §4.4 (nested required fields, non-empty
identifiers); the method is not under `src/`. -/
def Schema.Sanitize (s : Schema) : Option ApiError :=
  if s.type = "" then some ⟨"", "type", 0, .required⟩ else Option.none

/-- A reusable response component. -/
structure Response where
  description : String
  deriving DecidableEq, Repr

/-- Modelled from the spec §4.4 (nested required fields); not under `src/`. -/
def Response.Sanitize (r : Response) : Option ApiError :=
  if r.description = "" then some ⟨"", "description", 0, .required⟩
  else Option.none

/-- A reusable parameter component. -/
structure Parameter where
  name : String
  deriving DecidableEq, Repr

/-- Modelled from the spec §4.4 (nested required fields); not under `src/`. -/
def Parameter.Sanitize (p : Parameter) : Option ApiError :=
  if p.name = "" then some ⟨"", "name", 0, .required⟩ else Option.none

/-- A reusable request-body component. -/
structure RequestBody where
  description : String
  deriving DecidableEq, Repr

/-- Modelled from the spec §4.4 (nested required fields); not under `src/`. -/
def RequestBody.Sanitize (r : RequestBody) : Option ApiError :=
  if r.description = "" then some ⟨"", "description", 0, .required⟩
  else Option.none

/-- A reusable header component. -/
structure Header where
  description : String
  deriving DecidableEq, Repr

/-- Modelled from the spec §4.4 (nested required fields); not under `src/`. -/
def Header.Sanitize (h : Header) : Option ApiError :=
  if h.description = "" then some ⟨"", "description", 0, .required⟩
  else Option.none

/-- `Example` (openapi.go lines 81-88): plain data, never sanitized by
`Components.Sanitize`. -/
structure Example where
  summary : String := ""
  description : String := ""
  value : String := ""
  externalValue : String := ""
  ref : String := ""
  deriving DecidableEq, Repr

/-- A security scheme: plain data, never sanitized in scope. -/
structure SecurityScheme where
  type : String := ""
  deriving DecidableEq, Repr

/-- A callback: plain data, never sanitized in scope. -/
structure Callback where
  expression : String := ""
  deriving DecidableEq, Repr

/-- A security requirement (plain data, never sanitized in scope). -/
structure SecurityRequirement where
  requirements : List (String × List String) := []
  deriving DecidableEq, Repr

/-- `ExternalDocumentation` (openapi.go lines 56-59). -/
structure ExternalDocumentation where
  description : String := ""
  url : String
  deriving DecidableEq, Repr

/-- `ExternalDocumentation.Sanitize` (openapi.go lines 209-215): the URL
must pass `is.URL`. -/
def ExternalDocumentation.Sanitize (ext : ExternalDocumentation) :
    Option ApiError :=
  if isURL ext.url then Option.none
  else some ⟨"", "url", 0, .invalidFormat⟩

/-- `Link` (openapi.go lines 62-71): note that `Server` is a pointer there,
modelled as an `Option`, and that the `$ref` form leaves it `none`. -/
structure Link where
  operationRef : String := ""
  operationId : String := ""
  parameters : List (String × String) := []
  requestBody : List (String × String) := []
  description : String := ""
  server : Option Server := Option.none
  ref : String := ""
  deriving DecidableEq, Repr

/-- `Link.Sanitize` (openapi.go lines 218-225): it calls
`l.Server.Sanitize()` unconditionally, so a `nil` server is dereferenced —
modelled as the undefined outer `none`; otherwise the server's error, if
any, gets the `server.` path seg prepended. -/
def Link.Sanitize (l : Link) : Option (Option ApiError) :=
  match l.server with
  | Option.none => Option.none
  | some srv =>
    match srv.Sanitize with
    | some err => some (some { err with field := "server." ++ err.field })
    | Option.none => some Option.none

/-- `Tag` (openapi.go lines 74-78). -/
structure Tag where
  name : String
  description : String := ""
  externalDocs : Option ExternalDocumentation := Option.none
  deriving DecidableEq, Repr

/-- `Tag.Sanitize` (openapi.go lines 228-241): a non-empty name is required
(`InvalidFormat` otherwise), then the optional external docs are checked
with the `externalDocs.` path segment prepended to an inner error. -/
def Tag.Sanitize (tag : Tag) : Option ApiError :=
  if tag.name = "" then some ⟨"", "name", 0, .invalidFormat⟩
  else
    match tag.externalDocs with
    | Option.none => Option.none
    | some ext =>
      match ext.Sanitize with
      | some err => some { err with field := "externalDocs." ++ err.field }
      | Option.none => Option.none

/-- `Components` (openapi.go lines 43-53): the reusable-object tables, each
keyed by name.  Go maps are modelled as association lists (the claims never
depend on an iteration order). -/
structure Components where
  schemas : List (String × Schema) := []
  responses : List (String × Response) := []
  parameters : List (String × Parameter) := []
  examples : List (String × Example) := []
  requestBodies : List (String × RequestBody) := []
  headers : List (String × Header) := []
  securitySchemes : List (String × SecurityScheme) := []
  links : List (String × Link) := []
  callbacks : List (String × Callback) := []
  deriving DecidableEq, Repr

/-- One keyed validation loop of `Components.Sanitize` (openapi.go lines
163-196): on the first failing entry, prepend `pre[key].` to the inner
error's field and stop. -/
def sanitizeKeyed (pre : String) (san : α → Option ApiError) :
    List (String × α) → Option ApiError
  | [] => Option.none
  | (key, item) :: rest =>
    match san item with
    | some err =>
      some { err with field := pre ++ "[" ++ key ++ "]." ++ err.field }
    | Option.none => sanitizeKeyed pre san rest

/-- The links loop of `Components.Sanitize` (openapi.go lines 198-203);
a crash inside `Link.Sanitize` (nil server) propagates as the outer
`none`. -/
def linksLoop : List (String × Link) → Option (Option ApiError)
  | [] => some Option.none
  | (key, l) :: rest =>
    match l.Sanitize with
    | Option.none => Option.none
    | some (some err) =>
      some (some { err with field := "links[" ++ key ++ "]." ++ err.field })
    | some Option.none => linksLoop rest

/-- `Components.Sanitize` (openapi.go lines 162-206): validate the schema,
response (source prefix `response[...]`, singular), parameter, request-body
and header tables, then the links; examples, security schemes and callbacks
are not validated by the source. -/
def Components.Sanitize (c : Components) : Option (Option ApiError) :=
  match sanitizeKeyed "schemas" Schema.Sanitize c.schemas with
  | some err => some (some err)
  | Option.none =>
  match sanitizeKeyed "response" Response.Sanitize c.responses with
  | some err => some (some err)
  | Option.none =>
  match sanitizeKeyed "parameters" Parameter.Sanitize c.parameters with
  | some err => some (some err)
  | Option.none =>
  match sanitizeKeyed "requestBodies" RequestBody.Sanitize c.requestBodies with
  | some err => some (some err)
  | Option.none =>
  match sanitizeKeyed "headers" Header.Sanitize c.headers with
  | some err => some (some err)
  | Option.none => linksLoop c.links

/-- A path item: its contents are never inspected by `OpenAPI.Sanitize`
(the source's `TODO 验证 paths`, openapi.go line 135). -/
structure PathItem where
  operations : List String := []
  deriving DecidableEq, Repr

/-- `OpenAPI` (openapi.go lines 31-40), the root object. -/
structure OpenAPI where
  openapi : String := ""
  info : Option Info := Option.none
  servers : List Server := []
  paths : List (String × PathItem) := []
  components : Option Components := Option.none
  security : List SecurityRequirement := []
  tags : List Tag := []
  externalDocs : Option ExternalDocumentation := Option.none
  deriving DecidableEq, Repr

/-- The per-server validation loop of `OpenAPI.Sanitize` (openapi.go lines
125-130).  Note the faithful slip of the source: on a failing entry the
error's field is REPLACED by `servers[index].` — the inner field path is
dropped, not prefixed (line 127 lacks the `+ err.Field` every sibling site
has). -/
def serversLoop : List Server → Nat → Option ApiError
  | [], _ => Option.none
  | srv :: rest, index =>
    match srv.Sanitize with
    | some err => some { err with field := "servers[" ++ toString index ++ "]." }
    | Option.none => serversLoop rest (index + 1)

/-- The tags validation loop of `OpenAPI.Sanitize` (openapi.go lines
144-149): prefix `tags[index].` to the inner error's field. -/
def tagsLoop : List Tag → Nat → Option ApiError
  | [], _ => Option.none
  | item :: rest, index =>
    match item.Sanitize with
    | some err =>
      some { err with field := "tags[" ++ toString index ++ "]." ++ err.field }
    | Option.none => tagsLoop rest (index + 1)

/-- `OpenAPI.Sanitize` (openapi.go lines 101-159), returning the optional
error beside the (possibly mutated) receiver: default the version to
`LatestVersion` when absent, then `InvalidFormat` on field `openapi` when
it is not a valid semantic version; require `info` and sanitize it with the
`info.` prefix; default an empty server list to the single root entry `/`
and validate each server; require a non-empty `paths` map; then sanitize
the optional components (with the `components.` prefix), each tag, and the
optional external docs.  The outer `none` is the crash a nil link server
causes inside `Components.Sanitize`. -/
def OpenAPI.Sanitize (oa : OpenAPI) : Option (Option ApiError × OpenAPI) :=
  let oa := if oa.openapi = "" then { oa with openapi := LatestVersion } else oa
  if SemVerValid oa.openapi then
    match oa.info with
    | Option.none => some (some ⟨"", "info", 0, .required⟩, oa)
    | some info =>
      match info.Sanitize with
      | some err => some (some { err with field := "info." ++ err.field }, oa)
      | Option.none =>
        let oa := if oa.servers = [] then
          { oa with servers := [{ url := "/" }] } else oa
        match serversLoop oa.servers 0 with
        | some err => some (some err, oa)
        | Option.none =>
          if oa.paths = [] then some (some ⟨"", "paths", 0, .required⟩, oa)
          else
            let tail : Option ApiError :=
              match tagsLoop oa.tags 0 with
              | some err => some err
              | Option.none =>
                match oa.externalDocs with
                | some ext =>
                  match ext.Sanitize with
                  | some err =>
                    some { err with field := "externalDocs." ++ err.field }
                  | Option.none => Option.none
                | Option.none => Option.none
            match oa.components with
            | some c =>
              match c.Sanitize with
              | Option.none => Option.none
              | some (some err) =>
                some (some { err with field := "components." ++ err.field }, oa)
              | some Option.none => some (tail, oa)
            | Option.none => some (tail, oa)
  else
    some (some ⟨"", "openapi", 0, .invalidFormat⟩, oa)

end openapi

/- ### Concrete fixtures used by witnesses and counterexamples -/

/-- A valid info object. -/
def okInfo : openapi.Info := { title := "The title", version := "1.0.0" }

/-- A one-entry path map (its contents are never inspected). -/
def somePaths : List (String × openapi.PathItem) := [("/users", {})]

/-- A document with a malformed semantic version string. -/
def c1doc : openapi.OpenAPI :=
  { openapi := "4.0", info := some okInfo, paths := somePaths }

/-- A document whose version string is absent. -/
def c1empty : openapi.OpenAPI :=
  { openapi := "", info := some okInfo, paths := somePaths }

/-- The state `c1empty` is left in by a successful sanitize: version and
servers defaulted. -/
def c1defaulted : openapi.OpenAPI :=
  { openapi := openapi.LatestVersion, info := some okInfo,
    servers := [{ url := "/" }], paths := somePaths }

/-- A document whose single server fails URL validation. -/
def c2doc : openapi.OpenAPI :=
  { openapi := "3.0.0", info := some okInfo,
    servers := [{ url := "" }], paths := somePaths }

/-- A document with a defaultable version, no servers and no paths. -/
def c9doc : openapi.OpenAPI :=
  { openapi := "", info := some okInfo, servers := [], paths := [] }

/-- A valid document with an empty server list. -/
def c8empty : openapi.OpenAPI :=
  { openapi := "3.0.0", info := some okInfo, servers := [], paths := somePaths }

/-- A document whose second server entry fails URL validation. -/
def c8bad : openapi.OpenAPI :=
  { openapi := "3.0.0", info := some okInfo,
    servers := [{ url := "https://example.com" }, { url := "" }],
    paths := somePaths }

/-- The lexed stream of `TestResponses_parseResponse` (headers, params and
an example before an unknown tag), with ASCII description text. -/
def testStream : List doc.Tag :=
  [⟨"apiHeader", "content-type optional content type here"⟩,
   ⟨"apiParam", "id int required unique id"⟩,
   ⟨"apiParam", "name string required the name"⟩,
   ⟨"apiParam", "nickname string optional the nickname"⟩,
   ⟨"apiExample", "json default example\nid: 1"⟩,
   ⟨"apiUnknown", "xxx"⟩]

/-- The `@apiResponse 200 array.object * description` tag of that test. -/
def testTag : doc.Tag := ⟨"apiResponse", "200 array.object * common description"⟩

/-- The response `newResponse testStream testTag` builds. -/
def testResponse : doc.Response :=
  { status := 200
    mimetype := "*"
    body :=
      { headers := [⟨"content-type", "content type here", true⟩]
        examples := [⟨"json", "default example", "id: 1"⟩]
        params :=
          [⟨"id", .mk .number Option.none "", false, "unique id"⟩,
           ⟨"name", .mk .string Option.none "", false, "the name"⟩,
           ⟨"nickname", .mk .string Option.none "", true, "the nickname"⟩]
        type := some (.mk .array (some (.mk .object Option.none ""))
          "common description") } }

/- ### Helper lemmas on the word and line splitters -/

/-- Dropping whitespace does nothing when the head is not whitespace. -/
theorem dropWS_of_head_not_ws {c : Char} (s : List Char) (h : isWS c = false) :
    dropWS (c :: s) = c :: s := by
  simp [dropWS, h]

/-- Dropping whitespace skips a whitespace head. -/
theorem dropWS_cons_of_ws {c : Char} (s : List Char) (h : isWS c = true) :
    dropWS (c :: s) = dropWS s := by
  simp [dropWS, h]

/-- A word made only of non-whitespace characters is taken whole. -/
theorem takeWord_all_not_ws :
    ∀ (l : List Char), (∀ c ∈ l, isWS c = false) → takeWord l = (l, []) := by
  intro l
  induction l with
  | nil => intro _; rfl
  | cons c s ih =>
    intro h
    have hc : isWS c = false := h c (by simp)
    have hs := ih (fun x hx => h x (by simp [hx]))
    simp [takeWord, hc, hs]

/-- Taking a word from non-whitespace text followed by a whitespace
character stops exactly at that character. -/
theorem takeWord_append_ws {c0 : Char} (h0 : isWS c0 = true) :
    ∀ (w rest : List Char), (∀ c ∈ w, isWS c = false) →
      takeWord (w ++ c0 :: rest) = (w, c0 :: rest) := by
  intro w
  induction w with
  | nil => intro rest _; simp [takeWord, h0]
  | cons c s ih =>
    intro rest h
    have hc : isWS c = false := h c (by simp)
    have hs := ih rest (fun x hx => h x (by simp [hx]))
    simp [takeWord, hc, hs]

/-- Dropping whitespace does nothing when the head, if any, is not
whitespace. -/
theorem dropWS_of_head?_not_ws (l : List Char)
    (h : ∀ c, l.head? = some c → isWS c = false) : dropWS l = l := by
  cases l with
  | nil => rfl
  | cons c s => exact dropWS_of_head_not_ws s (h c rfl)

/-- The word splitter ignores a leading whitespace character. -/
theorem splitWords_cons_of_ws {c : Char} (n : Nat) (s : List Char)
    (h : isWS c = true) : splitWords n (c :: s) = splitWords n s := by
  simp [splitWords, dropWS_cons_of_ws s h]

/-- With at least two fields still wanted, the splitter takes a whole
non-whitespace word that is followed by a whitespace character. -/
theorem splitWords_cons_word {c0 : Char} (n : Nat) (w rest : List Char)
    (hw : w ≠ []) (hnws : ∀ c ∈ w, isWS c = false) (h0 : isWS c0 = true) :
    splitWords (n + 2) (w ++ c0 :: rest) = w :: splitWords (n + 1) rest := by
  obtain ⟨c, w', rfl⟩ := List.exists_cons_of_ne_nil hw
  have hc : isWS c = false := hnws c (by simp)
  rw [splitWords, List.cons_append, dropWS_of_head_not_ws _ hc]
  have ht := takeWord_append_ws h0 (c :: w') rest hnws
  rw [List.cons_append] at ht
  rw [splitWordsGo, ht]
  rw [dropWS_cons_of_ws rest h0]
  rfl
  simp

/-- With one field still wanted, text with a non-whitespace head is
returned whole as the greedy trailing field. -/
theorem splitWords_one_of_head_not_ws (l : List Char)
    (h : ∀ c, l.head? = some c → isWS c = false) :
    splitWords 1 l = if l = [] then [] else [l] := by
  cases l with
  | nil => rfl
  | cons c s =>
    rw [splitWords, dropWS_of_head_not_ws s (h c rfl)]
    simp [splitWordsGo]

/-- Splitting at the first newline finds an explicitly appended newline
when the text before it contains none. -/
theorem splitAtNewline_append (l r : List Char) (h : '\n' ∉ l) :
    splitAtNewline (l ++ '\n' :: r) = some (l, r) := by
  induction l with
  | nil => simp [splitAtNewline]
  | cons c s ih =>
    have hc : ¬(c = '\n') := fun hh => h (hh ▸ List.mem_cons_self c s)
    have hs := ih (fun hx => h (List.mem_cons_of_mem c hx))
    simp [splitAtNewline, hc, hs]

/-- Text without a newline does not split. -/
theorem splitAtNewline_eq_none (l : List Char) (h : '\n' ∉ l) :
    splitAtNewline l = Option.none := by
  induction l with
  | nil => rfl
  | cons c s ih =>
    have hc : ¬(c = '\n') := fun hh => h (hh ▸ List.mem_cons_self c s)
    have hs := ih (fun hx => h (List.mem_cons_of_mem c hx))
    simp [splitAtNewline, hc, hs]

/- ### Helper lemmas on the sanitize loops -/

/-- The per-server loop reports nothing when every entry sanitizes clean. -/
theorem serversLoop_eq_none :
    ∀ (l : List openapi.Server) (i : Nat),
      (∀ s ∈ l, openapi.Server.Sanitize s = Option.none) →
      openapi.serversLoop l i = Option.none := by
  intro l
  induction l with
  | nil => intro i _; rfl
  | cons srv rest ih =>
    intro i h
    have h1 : openapi.Server.Sanitize srv = Option.none := h srv (by simp)
    have h2 := ih (i + 1) (fun s hs => h s (by simp [hs]))
    simp [openapi.serversLoop, h1, h2]

/-- The per-server loop stops at the first failing entry and reports
`servers[index].` — the inner error field is discarded, not prefixed
(openapi.go line 127). -/
theorem serversLoop_first_error :
    ∀ (pre : List openapi.Server) (i : Nat) (s : openapi.Server)
      (post : List openapi.Server) (e : ApiError),
      (∀ s' ∈ pre, openapi.Server.Sanitize s' = Option.none) →
      openapi.Server.Sanitize s = some e →
      openapi.serversLoop (pre ++ s :: post) i =
        some { e with field := "servers[" ++ toString (i + pre.length) ++ "]." } := by
  intro pre
  induction pre with
  | nil =>
    intro i s post e _ hs
    simp [openapi.serversLoop, hs]
  | cons p pre' ih =>
    intro i s post e hpre hs
    have hp : openapi.Server.Sanitize p = Option.none := hpre p (by simp)
    have := ih (i + 1) s post e (fun x hx => hpre x (by simp [hx])) hs
    rw [List.cons_append, openapi.serversLoop, hp]
    simp only [this]
    have harith : i + 1 + pre'.length = i + (p :: pre').length := by
      simp [List.length_cons]; omega
    rw [harith]

/-- Whenever `OpenAPI.Sanitize` returns at all (no crash), the state it
leaves the document in carries the defaulted version: the original string
when one was present, `LatestVersion` otherwise. -/
theorem sanitize_state_openapi :
    ∀ (d : openapi.OpenAPI) (r : Option ApiError × openapi.OpenAPI),
      openapi.OpenAPI.Sanitize d = some r →
      r.2.openapi = (if d.openapi = "" then openapi.LatestVersion else d.openapi) := by
  intro d r hr
  unfold openapi.OpenAPI.Sanitize at hr
  by_cases h0 : d.openapi = ""
  · simp only [h0, if_pos, if_true] at hr ⊢
    have hv : openapi.SemVerValid openapi.LatestVersion = true := by decide
    simp only [if_pos, hv, if_true] at hr
    repeat' split at hr
    all_goals first
      | exact Option.noConfusion hr
      | (simp only [Option.some.injEq] at hr; subst hr; rfl)
  · simp only [h0, if_neg, if_false, ite_false] at hr ⊢
    repeat' split at hr
    all_goals first
      | exact Option.noConfusion hr
      | (simp only [Option.some.injEq] at hr; subst hr; rfl)

/- ### The claims -/

/-- C6: for every input byte string `x`, `isOptional x` is true iff `x`
case-insensitively equals the literal "optional"; it is false for
"required" in any letter case, for "optional" with trailing content, and
for the empty string. -/
theorem claim_C6 :
    (∀ x : String, doc.isOptional x = true ↔ lowerStr x = lowerStr "optional") ∧
    doc.isOptional "optional" = true ∧
    doc.isOptional "Optional" = true ∧
    doc.isOptional "OPTIONAL" = true ∧
    doc.isOptional "required" = false ∧
    doc.isOptional "Required" = false ∧
    doc.isOptional "REQUIRED" = false ∧
    doc.isOptional "Optional " = false ∧
    doc.isOptional "optionals" = false ∧
    doc.isOptional "" = false := by
  refine ⟨fun x => ?_, by decide, by decide, by decide, by decide, by decide,
    by decide, by decide, by decide, by decide⟩
  have h : lowerStr "optional" = "optional" := by decide
  simp [doc.isOptional, h]

/-- C10: `Link.Sanitize` dereferences its server unconditionally — on every
link whose server is absent the operation is undefined (a nil-pointer
dereference in the source), and any defined outcome, error-free or not,
requires the unstated precondition that the server is present. -/
theorem claim_C10 :
    (∀ l : openapi.Link, l.server = Option.none →
      openapi.Link.Sanitize l = Option.none) ∧
    (∀ (l : openapi.Link) (r : Option ApiError),
      openapi.Link.Sanitize l = some r → l.server ≠ Option.none) := by
  constructor
  · intro l h
    simp [openapi.Link.Sanitize, h]
  · intro l r h hn
    simp [openapi.Link.Sanitize, hn] at h

/-- Witness for C10: the `$ref`-style link, carrying only a reference name
and no server, crashes its sanitizer. -/
theorem claim_C10_witness :
    openapi.Link.Sanitize { ref := "ref-1" } = Option.none :=
  claim_C10.1 { ref := "ref-1" } rfl

/-- C2 (code bug made explicit): sanitizing a document whose first server
fails URL validation (inner error field `url`) yields the dangling field
path `servers[0].` — the per-server loop in `OpenAPI.Sanitize` REPLACES the
error's field instead of prefixing its segment onto the inner path
(openapi.go line 127 lacks the `+ err.Field` every sibling call site has),
so the top-level caller does not see the fully qualified `servers[0].url`. -/
theorem claim_C2 :
    openapi.Server.Sanitize { url := "" } =
      some ⟨"", "url", 0, ErrKind.invalidFormat⟩ ∧
    openapi.OpenAPI.Sanitize c2doc =
      some (some ⟨"", "servers[0].", 0, ErrKind.invalidFormat⟩, c2doc) ∧
    ("servers[0]." : String) ≠ "servers[0].url" := by
  refine ⟨rfl, by decide, by decide⟩

/-- Counterexample to C1 as stated: sanitizing a document whose version
string `4.0` is not a valid semantic version does fail with
`InvalidFormat`, but the error's field is `openapi` — the root field that
holds the version string (openapi.go line 107) — not `version`. -/
theorem claim_C1_counterexample :
    openapi.OpenAPI.Sanitize c1doc =
      some (some ⟨"", "openapi", 0, ErrKind.invalidFormat⟩, c1doc) ∧
    ("openapi" : String) ≠ "version" :=
  ⟨by decide, by decide⟩

/-- C1 (amended): an absent version string is defaulted to the latest
supported version constant, and a present version string that is not a
valid semantic version fails with `InvalidFormat` on field `openapi` (not
`version`). -/
theorem claim_C1 :
    (∀ (d : openapi.OpenAPI), d.openapi = "" →
      ∀ r, openapi.OpenAPI.Sanitize d = some r →
        r.2.openapi = openapi.LatestVersion) ∧
    (∀ (d : openapi.OpenAPI), d.openapi ≠ "" →
      openapi.SemVerValid d.openapi = false →
      openapi.OpenAPI.Sanitize d =
        some (some ⟨"", "openapi", 0, ErrKind.invalidFormat⟩, d)) := by
  constructor
  · intro d h r hr
    rw [sanitize_state_openapi d r hr, if_pos h]
  · intro d h hv
    unfold openapi.OpenAPI.Sanitize
    rw [if_neg h]
    simp [hv]

/-- Witness for C1: the fixture without a version string ends up carrying
`3.0.1`, and the fixture with version `4.0` fails on field `openapi`. -/
theorem claim_C1_witness :
    c1defaulted.openapi = openapi.LatestVersion ∧
    openapi.OpenAPI.Sanitize c1doc =
      some (some ⟨"", "openapi", 0, ErrKind.invalidFormat⟩, c1doc) :=
  ⟨claim_C1.1 c1empty rfl (Option.none, c1defaulted) (by decide),
   claim_C1.2 c1doc (by decide) (by decide)⟩

/-- C9: a document with a valid (or defaulted) version, a present and clean
info object, validatable servers and an empty paths map fails with
`MissingRequiredField` (the source's `ErrRequired`) on field `paths`. -/
theorem claim_C9 :
    ∀ (d : openapi.OpenAPI) (i : openapi.Info),
      openapi.SemVerValid
        (if d.openapi = "" then openapi.LatestVersion else d.openapi) = true →
      d.info = some i →
      openapi.Info.Sanitize i = Option.none →
      (∀ s ∈ d.servers, openapi.Server.Sanitize s = Option.none) →
      d.paths = [] →
      openapi.OpenAPI.Sanitize d =
        some (some ⟨"", "paths", 0, ErrKind.required⟩,
          { d with
              openapi := if d.openapi = "" then openapi.LatestVersion else d.openapi,
              servers := if d.servers = [] then [{ url := "/" }] else d.servers }) := by
  intro d i hv hi hsan hsrv hp
  unfold openapi.OpenAPI.Sanitize
  by_cases h0 : d.openapi = "" <;> by_cases hs0 : d.servers = [] <;>
    simp only [h0, hs0, if_true, if_false, ite_true, ite_false] at hv ⊢
  · have hl : openapi.serversLoop [{ url := "/", description := "" }] 0 =
        Option.none := by decide
    simp [hi, hsan, hv, hl, hp, hs0]
  · have hl := serversLoop_eq_none d.servers 0 hsrv
    simp [hi, hsan, hv, hl, hp, hs0]
  · have hl : openapi.serversLoop [{ url := "/", description := "" }] 0 =
        Option.none := by decide
    simp [hi, hsan, hv, hl, hp, hs0]
  · have hl := serversLoop_eq_none d.servers 0 hsrv
    simp [hi, hsan, hv, hl, hp, hs0]
    rw [← hi, ← hp]

/-- Witness for C9: the concrete no-paths document fails on `paths` with
the required-field error, its version and servers having been defaulted. -/
theorem claim_C9_witness :
    openapi.OpenAPI.Sanitize c9doc =
      some (some ⟨"", "paths", 0, ErrKind.required⟩,
        { c9doc with
            openapi := openapi.LatestVersion, servers := [{ url := "/" }] }) :=
  claim_C9 c9doc okInfo (by decide) rfl (by decide) (by decide) rfl

/-- C8: a document with an empty server list is given exactly one synthetic
entry with URL `/` (visible in every non-crashing outcome of Sanitize); a
document with a non-empty server list has each entry validated and fails on
the first invalid one. -/
theorem claim_C8 :
    (∀ (d : openapi.OpenAPI) (i : openapi.Info),
      openapi.SemVerValid
        (if d.openapi = "" then openapi.LatestVersion else d.openapi) = true →
      d.info = some i →
      openapi.Info.Sanitize i = Option.none →
      d.servers = [] →
      ∀ r, openapi.OpenAPI.Sanitize d = some r →
        r.2.servers = [{ url := "/" }]) ∧
    (∀ (d : openapi.OpenAPI) (i : openapi.Info) (pre post : List openapi.Server)
        (s : openapi.Server) (e : ApiError),
      openapi.SemVerValid
        (if d.openapi = "" then openapi.LatestVersion else d.openapi) = true →
      d.info = some i →
      openapi.Info.Sanitize i = Option.none →
      d.servers = pre ++ s :: post →
      (∀ x ∈ pre, openapi.Server.Sanitize x = Option.none) →
      openapi.Server.Sanitize s = some e →
      openapi.OpenAPI.Sanitize d =
        some (some { e with field := "servers[" ++ toString pre.length ++ "]." },
          { d with
              openapi := if d.openapi = "" then openapi.LatestVersion
                else d.openapi })) := by
  constructor
  · intro d i hv hi hsan hs0 r hr
    unfold openapi.OpenAPI.Sanitize at hr
    have hl : openapi.serversLoop [{ url := "/", description := "" }] 0 =
        Option.none := by decide
    by_cases h0 : d.openapi = "" <;>
      simp only [h0, hs0, if_true, if_false, ite_true, ite_false] at hv hr <;>
      simp only [hi, hsan, hv, hl, hs0, if_true, ite_true] at hr <;>
      repeat' split at hr
    all_goals first
      | exact Option.noConfusion hr
      | (simp only [Option.some.injEq] at hr; subst hr; rfl)
  · intro d i pre post s e hv hi hsan hsrv hpre hs
    unfold openapi.OpenAPI.Sanitize
    have hne : ¬(d.servers = []) := by rw [hsrv]; simp
    have hl := serversLoop_first_error pre 0 s post e hpre hs
    rw [Nat.zero_add] at hl
    by_cases h0 : d.openapi = "" <;>
      simp only [h0, if_true, if_false, ite_true, ite_false] at hv ⊢ <;>
      simp [hi, hsan, hv, hne, hsrv, hl]
    rw [← hi, ← hsrv]

/-- Witness for C8: the empty-server fixture ends up with exactly the
synthetic root server, and the fixture whose second server has an empty URL
fails on that entry. -/
theorem claim_C8_witness :
    ({ c8empty with servers := [{ url := "/" }] } : openapi.OpenAPI).servers =
      [{ url := "/" }] ∧
    openapi.OpenAPI.Sanitize c8bad =
      some (some ⟨"", "servers[1].", 0, ErrKind.invalidFormat⟩, c8bad) :=
  ⟨claim_C8.1 c8empty okInfo (by decide) rfl (by decide) rfl
      (Option.none, { c8empty with servers := [{ url := "/" }] }) (by decide),
   claim_C8.2 c8bad okInfo [{ url := "https://example.com" }] []
      { url := "" } ⟨"", "url", 0, ErrKind.invalidFormat⟩
      (by decide) rfl (by decide) rfl (by decide) (by decide)⟩

/-- A single word of non-whitespace text is returned as the only field when
at least two fields are still wanted. -/
theorem splitWords_single_word (n : Nat) (l : List Char) (hne : l ≠ [])
    (h : ∀ c ∈ l, isWS c = false) : splitWords (n + 2) l = [l] := by
  obtain ⟨c, s, rfl⟩ := List.exists_cons_of_ne_nil hne
  rw [splitWords, dropWS_of_head_not_ws s (h c (by simp))]
  rw [splitWordsGo, takeWord_all_not_ws (c :: s) h]
  simp [splitWordsGo, dropWS]
  simp

/-- C3: the Response-builder is repeatable and stateless — whenever the
builder succeeds on a lexed stream and a tag, `parseResponse` appends that
one response to any accumulator (length grows by exactly one), the appended
entry is determined by the stream and tag alone, and invoking it twice
appends two identical independent entries, the first untouched by the
second call. -/
theorem claim_C3 :
    ∀ (d : doc.responses) (stream : List doc.Tag) (tag : doc.Tag)
      (r : doc.Response),
      doc.newResponse stream tag = .ok r →
      doc.responses.parseResponse d stream tag = ⟨d.Responses ++ [r]⟩ ∧
      (doc.responses.parseResponse d stream tag).Responses.length =
        d.Responses.length + 1 ∧
      doc.responses.parseResponse
          (doc.responses.parseResponse d stream tag) stream tag =
        ⟨d.Responses ++ [r, r]⟩ := by
  intro d stream tag r h
  have h1 : doc.responses.parseResponse d stream tag = ⟨d.Responses ++ [r]⟩ := by
    unfold doc.responses.parseResponse
    rw [h]
  refine ⟨h1, ?_, ?_⟩
  · rw [h1]; simp
  · rw [h1]
    unfold doc.responses.parseResponse
    rw [h]
    simp

/-- Witness for C3: parsing the `@apiResponse 200 array.object * …` tag of
the repository test twice against an empty accumulator yields two identical
independent responses with status 200 and mimetype `*`. -/
theorem claim_C3_witness :
    doc.responses.parseResponse ⟨[]⟩ testStream testTag = ⟨[testResponse]⟩ ∧
    doc.responses.parseResponse
        (doc.responses.parseResponse ⟨[]⟩ testStream testTag)
        testStream testTag = ⟨[testResponse, testResponse]⟩ :=
  ⟨(claim_C3 ⟨[]⟩ testStream testTag testResponse rfl).1,
   (claim_C3 ⟨[]⟩ testStream testTag testResponse rfl).2.2⟩

/-- C7: a tag body below the grammar's minimum token count mutates nothing:
`parseExample` on a body without a newline (for instance a bare mimetype)
and `parseHeader` on a body that is a single word (a bare name) both leave
the owning Body unchanged; the parsers have no error channel, so no error
is reported either. -/
theorem claim_C7 :
    (∀ (b : doc.Body) (tag : doc.Tag), '\n' ∉ tag.body.data →
      doc.Body.parseExample b tag = b) ∧
    (∀ (b : doc.Body) (tag : doc.Tag), (∀ c ∈ tag.body.data, isWS c = false) →
      doc.Body.parseHeader b tag = b) := by
  constructor
  · intro b tag h
    unfold doc.Body.parseExample
    rw [splitAtNewline_eq_none _ h]
  · intro b tag h
    unfold doc.Body.parseHeader
    by_cases hne : tag.body.data = []
    · rw [hne]
      rfl
    · rw [splitWords_single_word 1 _ hne h]

/-- Witness for C7: `@apiExample application/json` alone produces no
Example, and `@apiHeader ETag` alone produces no Header, on a previously
empty Body. -/
theorem claim_C7_witness :
    doc.Body.parseExample ⟨[], [], [], Option.none⟩
      ⟨"apiExample", "application/json"⟩ = ⟨[], [], [], Option.none⟩ ∧
    doc.Body.parseHeader ⟨[], [], [], Option.none⟩
      ⟨"apiHeader", "ETag"⟩ = ⟨[], [], [], Option.none⟩ :=
  ⟨claim_C7.1 ⟨[], [], [], Option.none⟩ ⟨"apiExample", "application/json"⟩
      (by decide),
   claim_C7.2 ⟨[], [], [], Option.none⟩ ⟨"apiHeader", "ETag"⟩ (by decide)⟩

/-- C5: for every `@apiExample` tag body made of a whitespace-free mimetype
token, a summary (without newlines, not starting with whitespace) and a
body after the first newline, `parseExample` reads the mimetype from the
first token, the summary from the rest of the first line, and the value
verbatim from everything after the first newline — whitespace and newlines
inside the value preserved — and appends the Example at the end of the
owning Body's list, for any prior contents (order kept, duplicates
allowed). -/
theorem claim_C5 :
    ∀ (b : doc.Body) (name mt sm val : String),
      mt.data ≠ [] → (∀ c ∈ mt.data, isWS c = false) →
      sm.data ≠ [] → (∀ c, sm.data.head? = some c → isWS c = false) →
      '\n' ∉ sm.data →
      doc.Body.parseExample b ⟨name, mt ++ " " ++ sm ++ "\n" ++ val⟩ =
        { b with examples := b.examples ++ [⟨mt, sm, val⟩] } := by
  intro b name mt sm val hmt1 hmt2 hsm1 hsm2 hsm3
  have hdata : (mt ++ " " ++ sm ++ "\n" ++ val).data
      = (mt.data ++ ' ' :: sm.data) ++ '\n' :: val.data := by
    show (mt.data ++ " ".data ++ sm.data ++ "\n".data ++ val.data)
        = (mt.data ++ ' ' :: sm.data) ++ '\n' :: val.data
    simp
  have hnl : '\n' ∉ mt.data ++ ' ' :: sm.data := by
    intro hmem
    rcases List.mem_append.mp hmem with hx | hx
    · have := hmt2 _ hx
      simp [isWS] at this
    · rcases List.mem_cons.mp hx with hx | hx
      · exact absurd hx.symm (by decide)
      · exact hsm3 hx
  have hsplit : splitAtNewline (mt ++ " " ++ sm ++ "\n" ++ val).data
      = some (mt.data ++ ' ' :: sm.data, val.data) := by
    rw [hdata]
    exact splitAtNewline_append _ _ hnl
  have hwords : splitWords 2 (mt.data ++ ' ' :: sm.data) = [mt.data, sm.data] := by
    have h1 := @splitWords_cons_word ' ' 0 mt.data sm.data hmt1 hmt2 (by decide)
    rw [h1, splitWords_one_of_head_not_ws sm.data hsm2, if_neg hsm1]
  unfold doc.Body.parseExample
  simp only [hsplit, hwords]

/-- Witness for C5: parsing `@apiExample application/json summary text` with
a two-line body value appends exactly that Example after a pre-existing
one, keeping the value verbatim. -/
theorem claim_C5_witness :
    doc.Body.parseExample ⟨[], [⟨"text/plain", "old", "x"⟩], [], Option.none⟩
        ⟨"apiExample", "application/json" ++ " " ++ "summary text" ++ "\n" ++
          "id: 1\nname: n"⟩ =
      ⟨[], [⟨"text/plain", "old", "x"⟩,
            ⟨"application/json", "summary text", "id: 1\nname: n"⟩], [],
        Option.none⟩ :=
  claim_C5 ⟨[], [⟨"text/plain", "old", "x"⟩], [], Option.none⟩ "apiExample"
    "application/json" "summary text" "id: 1\nname: n"
    (by decide) (by decide) (by decide) (by decide) (by decide)

/-- Repacking a string's character data yields the same string. -/
theorem string_mk_data (s : String) : String.mk s.data = s := rfl

/-- C4: for every `@apiResponse status type mimetype description…` tag made
of three whitespace-free tokens and an optional trailing description, a
numeric status token sets the response's status to that integer and the
mimetype is taken verbatim from the third token (so `*` is accepted), with
the trailing description — empty when absent, which is not an error —
attached to the parsed Type node rather than to the Response; a non-numeric
status token fails with `InvalidStatus`. -/
theorem claim_C4 :
    ∀ (stream : List doc.Tag) (st ty mt dsc : String),
      st.data ≠ [] → (∀ c ∈ st.data, isWS c = false) →
      ty.data ≠ [] → (∀ c ∈ ty.data, isWS c = false) →
      mt.data ≠ [] → (∀ c ∈ mt.data, isWS c = false) →
      (∀ c, dsc.data.head? = some c → isWS c = false) →
      ((∀ (n : Nat) (t : doc.Schema), parseNat st.data = some n →
          doc.parseType ty = .ok t →
          doc.newResponse stream
              ⟨"apiResponse", st ++ " " ++ ty ++ " " ++ mt ++ " " ++ dsc⟩ =
            .ok ⟨n, mt, { doc.consumeBody {} stream with
                type := some (t.withDescription dsc) }⟩) ∧
       (parseNat st.data = Option.none →
          doc.newResponse stream
              ⟨"apiResponse", st ++ " " ++ ty ++ " " ++ mt ++ " " ++ dsc⟩ =
            .error ⟨"", "status", 0, ErrKind.invalidStatus⟩)) := by
  intro stream st ty mt dsc hst1 hst2 hty1 hty2 hmt1 hmt2 hd
  have hdata : (st ++ " " ++ ty ++ " " ++ mt ++ " " ++ dsc).data
      = st.data ++ ' ' :: (ty.data ++ ' ' :: (mt.data ++ ' ' :: dsc.data)) := by
    show st.data ++ " ".data ++ ty.data ++ " ".data ++ mt.data ++ " ".data ++
        dsc.data = _
    simp
  have hsplit : splitWords 4 (st ++ " " ++ ty ++ " " ++ mt ++ " " ++ dsc).data
      = st.data :: ty.data :: mt.data ::
          (if dsc.data = [] then [] else [dsc.data]) := by
    rw [hdata]
    rw [@splitWords_cons_word ' ' 2 st.data _ hst1 hst2 (by decide)]
    rw [@splitWords_cons_word ' ' 1 ty.data _ hty1 hty2 (by decide)]
    rw [@splitWords_cons_word ' ' 0 mt.data _ hmt1 hmt2 (by decide)]
    rw [splitWords_one_of_head_not_ws dsc.data hd]
  have htail : ((if dsc.data = [] then ([] : List (List Char))
      else [dsc.data]).headD []) = dsc.data := by
    split
    · simp_all
    · rfl
  constructor
  · intro n t hn ht
    unfold doc.newResponse
    simp only [hsplit, hn, htail, string_mk_data, ht]
  · intro hn
    unfold doc.newResponse
    simp only [hsplit, hn]

/-- Witness for C4: `200 array.object * common description` over the test
stream builds the response with status 200, mimetype `*` and the
description on the Array type node; a non-numeric status `abc` fails with
`InvalidStatus`; the description-free variant leaves the type node's
description empty. -/
theorem claim_C4_witness :
    doc.newResponse testStream
        ⟨"apiResponse",
          "200" ++ " " ++ "array.object" ++ " " ++ "*" ++ " " ++
            "common description"⟩ = .ok testResponse ∧
    doc.newResponse testStream
        ⟨"apiResponse",
          "abc" ++ " " ++ "array.object" ++ " " ++ "*" ++ " " ++ ""⟩ =
      .error ⟨"", "status", 0, ErrKind.invalidStatus⟩ ∧
    doc.newResponse testStream
        ⟨"apiResponse",
          "200" ++ " " ++ "array.object" ++ " " ++ "*" ++ " " ++ ""⟩ =
      .ok { testResponse with
        body := { testResponse.body with
          type := some (.mk .array (some (.mk .object Option.none "")) "") } } :=
  ⟨(claim_C4 testStream "200" "array.object" "*" "common description"
      (by decide) (by decide) (by decide) (by decide) (by decide) (by decide)
      (by decide)).1 200
      (.mk .array (some (.mk .object Option.none "")) "") (by decide) rfl,
   (claim_C4 testStream "abc" "array.object" "*" ""
      (by decide) (by decide) (by decide) (by decide) (by decide) (by decide)
      (by decide)).2 (by decide),
   (claim_C4 testStream "200" "array.object" "*" ""
      (by decide) (by decide) (by decide) (by decide) (by decide) (by decide)
      (by decide)).1 200
      (.mk .array (some (.mk .object Option.none "")) "") (by decide) rfl⟩

end Apidoc
